import Mathlib

/-!
Shallow embedding of the claudeeditor repository, covering:
  * `lib/storage/snapshots.ts` (`SnapshotManager`),
  * `lib/claude/api.ts` (`ClaudeAPI`),
  * `public/service-worker.js` (offline queue).

Modelling conventions:
  * JS `Date` timestamps and `Date.now()` values are `Nat` milliseconds.
  * IndexedDB object stores are lists of records; the store's key order is
    abstracted as the list order (snapshot ids are random `nanoid`s, so no
    claim depends on key order; the offline queue's ids are monotonically
    increasing `Date.now()` strings of equal length, so key order coincides
    with insertion order).
  * JS `Map` is an insertion-ordered association list: `set` of a present
    key updates in place, `set` of an absent key appends, iteration and
    `keys().next()` follow that order, exactly as ECMAScript specifies.
  * 32-bit integer coercion (`x | 0`, `x & x`, `<<`) is explicit `Int`
    arithmetic modulo 2^32, recentred into `[-2^31, 2^31)`.
  * Asynchronous effects (fetch, IndexedDB transactions) are made explicit:
    fallible operations return `Except`/`Option`, and network outcomes are
    passed as explicit `FetchOutcome` arguments.
-/

set_option maxRecDepth 20000

/-! ### Generic string helpers (JS `includes` / regex fragments) -/

/-- Predicate `leadMatch pat s`: does `pat` occur at the very start of `s`? -/
def leadMatch : List Char → List Char → Bool
  | [], _ => true
  | _ :: _, [] => false
  | a :: as, b :: bs => a == b && leadMatch as bs

/-- Predicate `hasSub pat s`: does `pat` occur contiguously anywhere in `s`?
Models JS `String.prototype.includes` and the regex fragment `pat` with
no metacharacters. -/
def hasSub (pat : List Char) : List Char → Bool
  | [] => leadMatch pat []
  | c :: rest => leadMatch pat (c :: rest) || hasSub pat rest

/-- Predicate `matchSeq a b s`: is there an occurrence of `a` in `s` followed (at or
after its end) by an occurrence of `b`?  Models the regex `a.*b` on a
newline-free subject string. -/
def matchSeq (a b : List Char) : List Char → Bool
  | [] => false
  | c :: rest => (leadMatch a (c :: rest) && hasSub b ((c :: rest).drop a.length)) || matchSeq a b rest

/-- String-level wrapper for `hasSub`. -/
def strHasSub (s pat : String) : Bool := hasSub pat.toList s.toList

/-- String-level wrapper for `matchSeq`. -/
def strMatchSeq (s a b : String) : Bool := matchSeq a.toList b.toList s.toList

/-! ### JS 32-bit hash and base-36 rendering (`ClaudeAPI.generateCacheKey`) -/

/-- JS `ToInt32`: reduce an integer modulo 2^32 into `[-2^31, 2^31)`. -/
def toInt32 (n : Int) : Int := (n + 2 ^ 31) % 2 ^ 32 - 2 ^ 31

/-- One step of the key hash: `hash = ((hash << 5) - hash) + char; hash = hash & hash`.
`hash << 5` coerces to int32 with wrap-around; the subtraction and addition are
exact in float64 at these magnitudes; `hash & hash` coerces back to int32. -/
def hashStep (h : Int) (c : Nat) : Int := toInt32 (toInt32 (32 * h) - h + c)

/-- The string hash loop of `generateCacheKey`; `charCodeAt` of an ASCII
character is its code point. -/
def jsHash (s : String) : Int := s.toList.foldl (fun h c => hashStep h c.toNat) 0

/-- Base-36 digit, as produced by JS `Number.prototype.toString(36)`. -/
def b36digit (n : Nat) : Char := if n < 10 then Char.ofNat (48 + n) else Char.ofNat (87 + n)

/-- Fuel-driven base-36 digit extraction (structural so that it evaluates in
the kernel; fuel `n` always suffices since a number has at most `n` digits). -/
def b36aux : Nat → Nat → List Char → List Char
  | 0, _, acc => acc
  | fuel + 1, n, acc => if n = 0 then acc else b36aux fuel (n / 36) (b36digit (n % 36) :: acc)

/-- JS `n.toString(36)` for a nonnegative number. -/
def natToB36 (n : Nat) : String := if n = 0 then "0" else String.mk (b36aux n n [])

/-- JS `n.toString(36)` for a possibly negative 32-bit number. -/
def intToB36 (i : Int) : String := if i < 0 then "-" ++ natToB36 i.natAbs else natToB36 i.toNat

/-- Rendering of `JSON.stringify({ messages: [{ role: 'user', content: q }], context: undefined })`
for a query `q` containing no characters that JSON escapes (the `context`
property is omitted because it is `undefined`). -/
def stringifySingleUserMessage (q : String) : String :=
  "\x7b\"messages\":[\x7b\"role\":\"user\",\"content\":\"" ++ q ++ "\"\x7d]\x7d"

/-- Model of `ClaudeAPI.generateCacheKey` for the message list `[{role:'user', content:q}]`
and an undefined context, as built by `checkCache`. -/
def generateCacheKeyUser (q : String) : String :=
  "claude_" ++ intToB36 (jsHash (stringifySingleUserMessage q))

/-! ### Intent classification (`ClaudeAPI.findSimilarCacheEntry` patterns) -/

/-- ASCII lowercasing of one character (JS `toLowerCase` on ASCII input). -/
def charLower (c : Char) : Char :=
  if 65 ≤ c.toNat && c.toNat ≤ 90 then Char.ofNat (c.toNat + 32) else c

/-- ASCII lowercasing (JS `String.prototype.toLowerCase` on ASCII strings). -/
def strLower (s : String) : String := String.mk (s.toList.map charLower)

/-- The fixed pattern table of `findSimilarCacheEntry`: the first matching
pattern (all case-insensitive, modelled by lowercasing the query) yields the
intent category. -/
def classifyIntent (q : String) : Option String :=
  let l := strLower q
  if strMatchSeq l "fix" "error" then some "error-fix"
  else if strMatchSeq l "explain" "code" then some "code-explanation"
  else if strMatchSeq l "add" "feature" then some "feature-addition"
  else if strHasSub l "refactor" then some "refactoring"
  else if strHasSub l "optimize" then some "optimization"
  else if strHasSub l "test" then some "testing"
  else none

/-! ### `lib/storage/snapshots.ts` — `SnapshotManager`

The IndexedDB store `snapshots` is a list of `Snapshot` records; snapshot
ids (`snap_<nanoid>`) are abstracted as distinct `Nat`s drawn from a fresh
counter, and the store's (random) key order as the list order. -/

/-- The `Snapshot.status` field: `'working' | 'broken' | 'testing'`. -/
inductive SnapStatus where
  | working
  | broken
  | testing
deriving DecidableEq

/-- The `Snapshot` interface.  `files : Map<string, string>` is its entry
list (the code itself stores it as `Array.from(files.entries())`);
optional fields are `Option`s, with absent booleans read as `false`. -/
structure Snapshot where
  id : Nat
  timestamp : Nat
  label : String
  status : SnapStatus
  code : String
  files : List (String × String)
  compressedSize : Nat
  originalSize : Nat
  isMilestone : Bool
  autoSave : Bool
  description : Option String
  errorMsg : Option String
  dependencies : List (String × String)
deriving DecidableEq

/-- The type `Omit<Snapshot, 'id'>`: the argument of `saveSnapshot`. -/
structure SnapshotDraft where
  timestamp : Nat
  label : String
  status : SnapStatus
  code : String
  files : List (String × String)
  compressedSize : Nat
  originalSize : Nat
  isMilestone : Bool
  autoSave : Bool
  description : Option String
  errorMsg : Option String
  dependencies : List (String × String)
deriving DecidableEq

/-- The manager state: the object store plus the fresh-id supply that
abstracts `nanoid`. -/
structure MState where
  store : List Snapshot
  nextId : Nat
deriving DecidableEq

/-- The empty database. -/
def initMState : MState := ⟨[], 0⟩

/-- Constant `maxSnapshots = 50`. -/
def maxSnapshots : Nat := 50

/-- Constant `maxAutoSaves = 10`. -/
def maxAutoSaves : Nat := 10

/-- The comparator `(a, b) => b.timestamp.getTime() - a.timestamp.getTime()`:
`a` precedes `b` when `a.timestamp ≥ b.timestamp` (newest first). -/
def tsGE (a b : Snapshot) : Prop := b.timestamp ≤ a.timestamp

instance : DecidableRel tsGE := fun a b => Nat.decLe b.timestamp a.timestamp

instance : IsTotal Snapshot tsGE := ⟨fun a b => (Nat.le_total b.timestamp a.timestamp)⟩

instance : IsTrans Snapshot tsGE :=
  ⟨fun _ _ _ h1 h2 => Nat.le_trans h2 h1⟩

/-- Model of `getAllSnapshots`: read the whole store and sort it newest-first. -/
def getAllSnapshots (σ : MState) : List Snapshot := List.insertionSort tsGE σ.store

/-- Model of `getSnapshot(id)`: direct key lookup. -/
def getSnapshot (i : Nat) (σ : MState) : Option Snapshot :=
  σ.store.find? (fun s => s.id == i)

/-- Model of `deleteSnapshot(id)`: remove the record with that key. -/
def deleteById (store : List Snapshot) (i : Nat) : List Snapshot :=
  store.filter (fun s => decide (s.id ≠ i))

/-- Common shape of `cleanupAutoSaves` / `cleanupOldSnapshots`: read all
snapshots newest-first, select by `p`, and when more than `cap` are
selected, delete every selected snapshot beyond the `cap` newest. -/
def cleanupGen (p : Snapshot → Bool) (cap : Nat) (store : List Snapshot) : List Snapshot :=
  let sel := (List.insertionSort tsGE store).filter p
  if sel.length > cap then
    (sel.drop cap).foldl (fun acc s => deleteById acc s.id) store
  else store

/-- Model of `cleanupAutoSaves`: keep only the `maxAutoSaves` newest auto-saves. -/
def cleanupAutoSaves (σ : MState) : MState :=
  { σ with store := cleanupGen (fun s => s.autoSave) maxAutoSaves σ.store }

/-- Model of `cleanupOldSnapshots`: keep only the `maxSnapshots` newest
non-milestone snapshots (milestones are exempt). -/
def cleanupOldSnapshots (σ : MState) : MState :=
  { σ with store := cleanupGen (fun s => !s.isMilestone) maxSnapshots σ.store }

/-- Materialise a draft with a freshly generated id
(`id: snap_<nanoid(10)>`; `new Date(timestamp)` preserves the instant). -/
def mkSnap (d : SnapshotDraft) (i : Nat) : Snapshot :=
  ⟨i, d.timestamp, d.label, d.status, d.code, d.files, d.compressedSize,
   d.originalSize, d.isMilestone, d.autoSave, d.description, d.errorMsg, d.dependencies⟩

/-- Model of `saveSnapshot`: clean up auto-saves when the draft is an auto-save,
always clean up old snapshots, then `add` the new record. -/
def saveSnapshot (d : SnapshotDraft) (σ : MState) : Snapshot × MState :=
  let σ1 := if d.autoSave then cleanupAutoSaves σ else σ
  let σ2 := cleanupOldSnapshots σ1
  let snap := mkSnap d σ2.nextId
  (snap, ⟨σ2.store ++ [snap], σ2.nextId + 1⟩)

/-- Model of `getLastWorkingSnapshot`: all snapshots with `status = 'working'`
(via the `status` index), sorted newest-first; the head, or `null`. -/
def getLastWorkingSnapshot (σ : MState) : Option Snapshot :=
  (List.insertionSort tsGE (σ.store.filter (fun s => decide (s.status = .working)))).head?

/-- Errors surfaced by `SnapshotManager` (`throw new Error(...)`). -/
inductive SnapError where
  | notFound
deriving DecidableEq

/-- Model of `restoreSnapshot(id)`: look the target up, write a pre-restore backup
(status `'testing'`, label `Before restore to: <target.label>`, and —
as the source reads, with the comment "This should be the current code" —
the target's own `code` and `files`), then return the target. -/
def restoreSnapshot (now : Nat) (i : Nat) (σ : MState) : Except SnapError (Snapshot × MState) :=
  match getSnapshot i σ with
  | none => .error .notFound
  | some snap =>
    let saved := saveSnapshot
      ⟨now, "Before restore to: " ++ snap.label, .testing, snap.code, snap.files,
       snap.compressedSize, snap.originalSize, false, false,
       some "Automatic backup before restore", none, []⟩ σ
    .ok (snap, saved.2)

/-- Model of `exportSnapshots`: the export payload's snapshot list (all snapshots,
newest-first; the JSON envelope and `files` entry-array conversion are
content-preserving and abstracted away). -/
def exportSnapshots (σ : MState) : List Snapshot := getAllSnapshots σ

/-- The draft `saveSnapshot` receives for an imported snapshot: every field
but the id survives the spread (the id is regenerated). -/
def toDraft (s : Snapshot) : SnapshotDraft :=
  ⟨s.timestamp, s.label, s.status, s.code, s.files, s.compressedSize,
   s.originalSize, s.isMilestone, s.autoSave, s.description, s.errorMsg, s.dependencies⟩

/-- Model of `importSnapshots`: save every snapshot of the payload in payload order,
returning the number imported. -/
def importSnapshots (payload : List Snapshot) (σ : MState) : Nat × MState :=
  (payload.length, payload.foldl (fun acc s => (saveSnapshot (toDraft s) acc).2) σ)

/-- Number of auto-save snapshots in a store. -/
def countAuto (store : List Snapshot) : Nat := (store.filter (fun s => s.autoSave)).length

/-- Number of non-milestone snapshots in a store. -/
def countNonMilestone (store : List Snapshot) : Nat :=
  (store.filter (fun s => !s.isMilestone)).length

/-- Run a sequence of `saveSnapshot` calls. -/
def runSaves (drafts : List SnapshotDraft) (σ : MState) : MState :=
  drafts.foldl (fun acc d => (saveSnapshot d acc).2) σ

/-! ### `lib/claude/api.ts` — `ClaudeAPI`

The in-memory cache (`Map<string, CacheEntry>`) is an insertion-ordered
association list; the IndexedDB `responses` store is modelled the same way
(key order of the persistent tier is irrelevant to every claim).  The
`context` argument is taken as `undefined` (no claim involves one). -/

/-- The `ClaudeResponse` interface (optional fields as `Option`s). -/
structure ClaudeResponse where
  content : String
  tokens : Option Nat
  cached : Option Bool
  code : Option String
deriving DecidableEq

/-- The `CacheEntry` interface. -/
structure CacheEntry where
  key : String
  response : ClaudeResponse
  timestamp : Nat
  hits : Nat
deriving DecidableEq

/-- An insertion-ordered JS `Map<string, CacheEntry>`. -/
abbrev MemCache : Type := List (String × CacheEntry)

/-- JS `map.get(k)` / `map.has(k)`. -/
def mapGet (m : MemCache) (k : String) : Option CacheEntry :=
  (m.find? (fun p => p.1 == k)).map (fun p => p.2)

/-- JS `map.set(k, v)`: update in place when the key is present, else append. -/
def mapSet (m : MemCache) (k : String) (v : CacheEntry) : MemCache :=
  if m.any (fun p => p.1 == k) then
    m.map (fun p => if p.1 == k then (k, v) else p)
  else m ++ [(k, v)]

/-- JS `map.delete(k)`. -/
def mapDeleteKey (m : MemCache) (k : String) : MemCache :=
  m.filter (fun p => !(p.1 == k))

/-- Constant `CACHE_CONFIG.maxMemoryCacheSize = 100`. -/
def maxMemoryCacheSize : Nat := 100

/-- Model of `ClaudeAPI.cacheResponse`: insert the fresh entry, then—only here—if the
map overflowed, evict the single first-inserted key. -/
def cacheResponse (now : Nat) (k : String) (r : ClaudeResponse) (m : MemCache) : MemCache :=
  let entry : CacheEntry := ⟨k, r, now, 0⟩
  let m1 := mapSet m k entry
  if m1.length > maxMemoryCacheSize then
    match m1.head? with
    | some p => mapDeleteKey m1 p.1
    | none => m1
  else m1

/-- Model of `ClaudeAPI.findSimilarCacheEntry`: classify the query; when it has an
intent category, return the first memory entry whose key contains the
category name as a substring. -/
def findSimilarCacheEntry (q : String) (m : MemCache) : Option CacheEntry :=
  match classifyIntent q with
  | none => none
  | some cat => (m.find? (fun p => strHasSub p.1 cat)).map (fun p => p.2)

/-- The mutable fields of `ClaudeAPI` that the cache path touches:
the hit counters, the memory tier, and the persistent tier
(`none` while the IndexedDB connection is unavailable). -/
structure ApiState where
  totalRequests : Nat
  cacheHits : Nat
  mem : MemCache
  persistent : Option MemCache
deriving DecidableEq

/-- A fresh `ClaudeAPI` (before `initPersistentCache` completes). -/
def initApiState : ApiState := ⟨0, 0, [], none⟩

/-- Model of `ClaudeAPI.checkCache` for query `q` (context `undefined`):
count the request, then try the memory tier, the persistent tier
(promoting a hit into memory and writing back the bumped hit counter),
and finally the fuzzy tier; bump `cacheHits` on any of the three hits. -/
def checkCache (q : String) (σ : ApiState) : Option ClaudeResponse × ApiState :=
  let key := generateCacheKeyUser q
  let σ := { σ with totalRequests := σ.totalRequests + 1 }
  match mapGet σ.mem key with
  | some e =>
    let e' := { e with hits := e.hits + 1 }
    (some { e.response with cached := some true },
     { σ with mem := mapSet σ.mem key e', cacheHits := σ.cacheHits + 1 })
  | none =>
    let afterPersistent : Option (Option ClaudeResponse × ApiState) :=
      match σ.persistent with
      | none => none
      | some pstore =>
        match mapGet pstore key with
        | none => none
        | some e =>
          let e' := { e with hits := e.hits + 1 }
          some (some { e.response with cached := some true },
                { σ with cacheHits := σ.cacheHits + 1,
                         mem := mapSet σ.mem key e',
                         persistent := some (mapSet pstore key e') })
    match afterPersistent with
    | some out => out
    | none =>
      match findSimilarCacheEntry q σ.mem with
      | some e =>
        (some { e.response with cached := some true },
         { σ with cacheHits := σ.cacheHits + 1 })
      | none => (none, σ)

/-- Model of `ClaudeAPI.clearCache`: clear both tiers and zero both counters. -/
def clearCache (σ : ApiState) : ApiState :=
  ⟨0, 0, [], σ.persistent.map (fun _ => [])⟩

/-- Model of `getCacheStats().hitRate`: `Math.round(cacheHits / totalRequests * 100)`,
or `0` when no request was made.  Floating-point rounding is modelled as
exact round-half-up: `⌊(100·hits/total) + 1/2⌋ = ⌊(200·hits + total) / (2·total)⌋`. -/
def hitRate (σ : ApiState) : Nat :=
  if σ.totalRequests = 0 then 0
  else (200 * σ.cacheHits + σ.totalRequests) / (2 * σ.totalRequests)

/-- Writing an entry through to the persistent tier (`store.put`). -/
def persistPut (now : Nat) (k : String) (r : ClaudeResponse) (p : Option MemCache) : Option MemCache :=
  p.map (fun pstore => mapSet pstore k ⟨k, r, now, 0⟩)

/-- The operations of `ClaudeAPI` that run between observations of the
counters (`sendMessage` reaches them only through `checkCache` and
`cacheResponse`). -/
inductive ApiOp where
  | check (q : String)
  | cacheResp (now : Nat) (k : String) (r : ClaudeResponse)
  | clear
deriving DecidableEq

/-- One `ClaudeAPI` operation acting on the state. -/
def applyApiOp (σ : ApiState) : ApiOp → ApiState
  | .check q => (checkCache q σ).2
  | .cacheResp now k r =>
    { σ with mem := cacheResponse now k r σ.mem, persistent := persistPut now k r σ.persistent }
  | .clear => clearCache σ

/-- Run a sequence of `ClaudeAPI` operations from a fresh instance. -/
def runApiOps (ops : List ApiOp) : ApiState := ops.foldl applyApiOp initApiState

/-! ### `ClaudeAPI.sendMessage` and its fallback path -/

/-- The `ClaudeMessage.role` field. -/
inductive MsgRole where
  | user
  | assistant
  | system
deriving DecidableEq

/-- The `ClaudeMessage` interface. -/
structure ClaudeMessage where
  role : MsgRole
  content : String
deriving DecidableEq

/-- JSON rendering of a role string. -/
def roleStr : MsgRole → String
  | .user => "user"
  | .assistant => "assistant"
  | .system => "system"

/-- Rendering of `JSON.stringify({ messages, context: undefined })` for a full message
list of escape-free ASCII messages (used by `sendMessage` for its own
cache key, which covers the whole conversation). -/
def stringifyMessages (msgs : List ClaudeMessage) : String :=
  "\x7b\"messages\":[" ++
    String.intercalate ","
      (msgs.map (fun m =>
        "\x7b\"role\":\"" ++ roleStr m.role ++ "\",\"content\":\"" ++ m.content ++ "\"\x7d")) ++
  "]\x7d"

/-- Model of `generateCacheKey(messages, context)` as called at the top of `sendMessage`. -/
def generateCacheKeyMessages (msgs : List ClaudeMessage) : String :=
  "claude_" ++ intToB36 (jsHash (stringifyMessages msgs))

/-- The body of a successful `/api/claude` reply, as read by `sendMessage`:
`data.content`, `data.error`, and the token count
(`data.usage?.completion_tokens || data.usage?.total_tokens`, collapsed to
one optional number). -/
structure ApiData where
  content : Option String
  errorMsg : Option String
  tokens : Option Nat
deriving DecidableEq

/-- The observable outcome of `fetch('/api/claude', ...)`:
the call threw, returned a non-ok status, or returned ok with a JSON body. -/
inductive FetchOutcome where
  | fetchThrow
  | httpError (status : Nat)
  | success (d : ApiData)
deriving DecidableEq

/-- JS exceptions that escape the modelled functions. -/
inductive JsError where
  | typeError
deriving DecidableEq

/-- First fenced code block of a reply:
`/```(?:typescript|javascript|tsx|jsx)?\n([\s\S]*?)```/` applied at the
first fence of the content (no claim exercises backtracking to later
fences). -/
def extractCodeBlock (s : String) : Option String :=
  match s.splitOn "```" with
  | _ :: body :: _ :: _ =>
    let langs := ["typescript", "javascript", "tsx", "jsx"]
    match langs.find? (fun lang => strHasSub body (lang ++ "\n") &&
        leadMatch (lang ++ "\n").toList body.toList) with
    | some lang => some (body.drop (lang.length + 1))
    | none =>
      match body.toList with
      | '\n' :: rest => some (String.mk rest)
      | _ => none
  | _ => none

/-- Model of `ClaudeAPI.getFallbackResponse`: a canned module-not-found recipe when
the query mentions a missing module, otherwise a generic apology. -/
def getFallbackResponse (q : String) : ClaudeResponse :=
  let lq := strLower q
  if strHasSub lq "module not found" || strHasSub lq "cannot find module" then
    { content := "To fix \"Module not found\" error:\n\n1. Check if the package is installed:\n```bash\nnpm list [package-name]\n```\n\n2. If not installed, run:\n```bash\nnpm install [package-name]\n```\n\n3. Clear cache and rebuild:\n```bash\nrm -rf .next node_modules\nnpm install\nnpm run dev\n```",
      tokens := none, cached := some true, code := none }
  else
    { content := "I apologize, but I encountered an issue processing your request. Please try again or rephrase your question.",
      tokens := none, cached := some false, code := none }

/-- Model of `ClaudeAPI.sendMessage`: read the last message's content (a JS
`TypeError` on an empty list, since `messages[-1]` is `undefined`), consult
`checkCache`, and otherwise perform the fetch; every failure inside the
`try` (thrown fetch, non-ok status, `data.error`) falls back to
`getFallbackResponse`; a success is cached under the conversation key.
The request construction (`buildSystemMessage`, headers, body) only feeds
the fetch and is absorbed into the `FetchOutcome` argument. -/
def sendMessage (env : FetchOutcome) (now : Nat) (msgs : List ClaudeMessage)
    (σ : ApiState) : Except JsError (ClaudeResponse × ApiState) :=
  match msgs.getLast? with
  | none => .error .typeError
  | some last =>
    match checkCache last.content σ with
    | (some c, σ1) => .ok (c, σ1)
    | (none, σ1) =>
      match env with
      | .fetchThrow => .ok (getFallbackResponse last.content, σ1)
      | .httpError _ => .ok (getFallbackResponse last.content, σ1)
      | .success d =>
        if d.errorMsg.isSome then .ok (getFallbackResponse last.content, σ1)
        else
          let result : ClaudeResponse :=
            { content := d.content.getD "", tokens := d.tokens,
              cached := some false, code := d.content.bind extractCodeBlock }
          .ok (result,
               { σ1 with mem := cacheResponse now (generateCacheKeyMessages msgs) result σ1.mem,
                         persistent := persistPut now (generateCacheKeyMessages msgs) result σ1.persistent })

/-- Does this fetch outcome take one of the failure paths of `sendMessage`
(thrown fetch, non-ok response, or an `error` field in the reply)? -/
def envFails : FetchOutcome → Bool
  | .fetchThrow => true
  | .httpError _ => true
  | .success d => d.errorMsg.isSome

/-! ### `public/service-worker.js` — offline queue -/

/-- One record of the `offline_queue` store: `{ id: Date.now().toString(),
data: requestData }`.  Ids are `Nat`s (equal-length decimal strings compare
lexicographically exactly as numbers); the request payload is never
inspected by the queue logic and is kept as a string. -/
structure QItem where
  id : Nat
  data : String
deriving DecidableEq

/-- Constant `MAX_QUEUE_SIZE = 10`. -/
def maxQueueSize : Nat := 10

/-- Model of `addToOfflineQueue`: read the queue (key order = ascending id = oldest
first), delete `queue[0]` when the size limit is reached, then `add` the
new record keyed by the current time.  `Date.now()` values are strictly
increasing across calls, so the new key sorts last. -/
def addToOfflineQueue (now : Nat) (d : String) (q : List QItem) : List QItem :=
  let q1 := if q.length ≥ maxQueueSize then
    match q.head? with
    | some oldest => q.filter (fun it => decide (it.id ≠ oldest.id))
    | none => q
  else q
  q1 ++ [⟨now, d⟩]

/-- Run a sequence of `addToOfflineQueue` calls against an initially empty
queue. -/
def runQueue (ops : List (Nat × String)) : List QItem :=
  ops.foldl (fun q (op : Nat × String) => addToOfflineQueue op.1 op.2 q) []

/-- The observable outcome of replaying one queued request. -/
inductive ReplayOutcome where
  | ok
  | notOk
  | fetchThrow
deriving DecidableEq

/-- The replay loop of `processOfflineQueue` over the snapshot `items` of
the queue, acting on the store: a successful replay deletes the item from
the store; a thrown fetch is caught per item, and a non-ok response leaves
the item in place; either way the loop continues with the next item.  The
second component records the items whose replay was attempted. -/
def processGo (res : QItem → ReplayOutcome) :
    List QItem → List QItem → List QItem × List QItem
  | store, [] => (store, [])
  | store, item :: rest =>
    let store' := if res item = .ok then store.filter (fun it => decide (it.id ≠ item.id)) else store
    let out := processGo res store' rest
    (out.1, item :: out.2)

/-- Model of `processOfflineQueue`: snapshot the queue with `getAll` (oldest first)
and replay it; returns the store left behind and the attempted items. -/
def processOfflineQueue (res : QItem → ReplayOutcome) (q : List QItem) :
    List QItem × List QItem :=
  processGo res q q

/-! ### Supporting lemmas: offline queue -/

/-- One enqueue preserves the queue bound. -/
theorem addToOfflineQueue_length_le (now : Nat) (d : String) (q : List QItem)
    (h : q.length ≤ maxQueueSize) :
    (addToOfflineQueue now d q).length ≤ maxQueueSize := by
  simp only [addToOfflineQueue, maxQueueSize] at *
  by_cases hfull : q.length ≥ 10
  · rw [if_pos hfull]
    cases q with
    | nil => simp at hfull
    | cons x t =>
      simp only [List.head?_cons]
      have hx : (decide (x.id ≠ x.id)) = false := by simp
      have hlen : (List.filter (fun it => decide (it.id ≠ x.id)) (x :: t)).length ≤ t.length := by
        rw [List.filter_cons, hx]
        simpa using List.length_filter_le _ t
      have ht : t.length + 1 ≤ 10 := by simpa using h
      simp only [List.length_append, List.length_cons, List.length_nil]
      omega
  · rw [if_neg hfull]
    push_neg at hfull
    simp only [List.length_append, List.length_cons, List.length_nil]
    omega

/-- The bound holds after every initial segment of enqueues from the empty queue. -/
theorem runQueue_length_le (ops : List (Nat × String)) :
    (runQueue ops).length ≤ maxQueueSize := by
  suffices h : ∀ q : List QItem, q.length ≤ maxQueueSize →
      (ops.foldl (fun q (op : Nat × String) => addToOfflineQueue op.1 op.2 q) q).length ≤ maxQueueSize by
    exact h [] (by simp [maxQueueSize])
  induction ops with
  | nil => intro q hq; simpa using hq
  | cons op rest ih =>
    intro q hq
    exact ih _ (addToOfflineQueue_length_le op.1 op.2 q hq)

/-- Eleven distinct enqueues, timestamps 1..11. -/
def elevenQueueOps : List (Nat × String) :=
  (List.range 11).map (fun k => (k + 1, "req" ++ natToB36 (k + 1)))

/-- C6: Offline queue bounded drop-oldest — for every sequence of enqueues
from the empty queue the queue holds at most `MAX_QUEUE_SIZE = 10` items
(so in particular after each call of any sequence), and enqueuing 11
distinct items leaves exactly 10 items from which the very first enqueued
item (id 1) is absent, the oldest having been deleted to make room for
the new item. -/
theorem offlineQueue_bounded_drop_oldest :
    (∀ ops : List (Nat × String), (runQueue ops).length ≤ maxQueueSize) ∧
    (runQueue elevenQueueOps).length = maxQueueSize ∧
    ((runQueue elevenQueueOps).map QItem.id = (List.range 10).map (fun k => k + 2)) := by
  refine ⟨runQueue_length_le, ?_, ?_⟩ <;> decide

/-- The replay loop attempts every snapshot item, regardless of earlier
failures. -/
theorem processGo_attempts (res : QItem → ReplayOutcome) (items : List QItem) :
    ∀ store, (processGo res store items).2 = items := by
  induction items with
  | nil => intro store; rfl
  | cons item rest ih =>
    intro store
    simp only [processGo, ih]

/-- The store left by the replay loop: exactly the snapshot items whose
replay succeeded are deleted. -/
theorem processGo_store (res : QItem → ReplayOutcome) (items : List QItem) :
    ∀ store, (processGo res store items).1 =
      store.filter (fun s => items.all (fun i => !(decide (res i = .ok) && (s.id == i.id)))) := by
  induction items with
  | nil =>
    intro store
    simp [processGo]
  | cons item rest ih =>
    intro store
    simp only [processGo]
    by_cases hok : res item = .ok
    · simp only [hok, if_true, ih, List.filter_filter]
      apply List.filter_congr
      intro s _
      rw [Bool.eq_iff_iff]
      simp only [List.all_cons, hok, Bool.and_eq_true, Bool.not_eq_true', beq_eq_decide,
        Bool.and_eq_false_iff, decide_eq_false_iff_not, decide_eq_true_eq, ne_eq,
        List.all_eq_true]
      tauto
    · simp only [hok, if_neg hok, ih]
      apply List.filter_congr
      intro s _
      simp [hok]

/-- C7: Replay independence — `processOfflineQueue` attempts the replay of
every queued item in oldest-first (queue) order even when earlier items
fail, and the queue afterwards consists exactly of the items whose replay
did not return a successful response, in their original order (an item is
deleted only on success; failed items remain). -/
theorem offlineReplay_independent (res : QItem → ReplayOutcome) (q : List QItem)
    (h : (q.map QItem.id).Nodup) :
    (processOfflineQueue res q).2 = q ∧
    (processOfflineQueue res q).1 = q.filter (fun it => decide (res it ≠ .ok)) := by
  refine ⟨processGo_attempts res q q, ?_⟩
  unfold processOfflineQueue
  rw [processGo_store res q q]
  apply List.filter_congr
  intro s hs
  have hinj := List.inj_on_of_nodup_map h
  rw [Bool.eq_iff_iff]
  simp only [List.all_eq_true, Bool.not_eq_true', Bool.and_eq_false_iff,
    decide_eq_false_iff_not, beq_eq_false_iff_ne, ne_eq, decide_eq_true_eq]
  constructor
  · intro hall
    rcases hall s hs with hres | hid
    · exact hres
    · exact absurd rfl hid
  · intro hres i hi
    by_cases hid : s.id = i.id
    · left
      have heq : s = i := hinj hs hi hid
      rw [← heq]
      exact hres
    · right; exact hid

/-! ### Supporting lemmas: snapshot sorting -/

/-- Sorting newest-first is a permutation of the store. -/
theorem sortTs_perm (l : List Snapshot) : List.Perm (List.insertionSort tsGE l) l :=
  List.perm_insertionSort tsGE l

/-- The head of the newest-first sort dominates every element's timestamp. -/
theorem sortTs_head_max {l : List Snapshot} {x : Snapshot} {xs : List Snapshot}
    (hsort : List.insertionSort tsGE l = x :: xs) :
    ∀ t ∈ l, t.timestamp ≤ x.timestamp := by
  intro t ht
  have hmem : t ∈ x :: xs := by
    rw [← hsort]
    exact ((sortTs_perm l).mem_iff).mpr ht
  rcases List.mem_cons.mp hmem with rfl | htail
  · exact Nat.le_refl _
  · have hs := List.sorted_insertionSort tsGE l
    rw [hsort] at hs
    exact List.rel_of_sorted_cons hs t htail

/-- C3: `getLastWorkingSnapshot` returns `null` exactly when no stored
snapshot has status `'working'`, and otherwise returns a stored snapshot
with status `'working'` whose timestamp is maximal among the snapshots of
status `'working'` — never a more recent snapshot of a different status. -/
theorem getLastWorking_correct (σ : MState) :
    (getLastWorkingSnapshot σ = none ↔ ∀ s ∈ σ.store, s.status ≠ .working) ∧
    (∀ s, getLastWorkingSnapshot σ = some s →
      s ∈ σ.store ∧ s.status = .working ∧
      ∀ t ∈ σ.store, t.status = .working → t.timestamp ≤ s.timestamp) := by
  set ws := σ.store.filter (fun s => decide (s.status = .working)) with hws
  have hperm : List.Perm (List.insertionSort tsGE ws) ws := sortTs_perm ws
  constructor
  · unfold getLastWorkingSnapshot
    rw [← hws]
    constructor
    · intro hnone s hs hstat
      have hempty : List.insertionSort tsGE ws = [] := by
        cases hsort : List.insertionSort tsGE ws with
        | nil => rfl
        | cons x xs => rw [hsort] at hnone; simp at hnone
      have hwnil : List.Perm ws ([] : List Snapshot) := by
        have h2 := hperm.symm
        rw [hempty] at h2
        exact h2
      have : ws = [] := hwnil.eq_nil
      have hmem : s ∈ ws := by
        rw [hws]
        exact List.mem_filter.mpr ⟨hs, by simpa using hstat⟩
      rw [this] at hmem
      simp at hmem
    · intro hall
      have hempty : ws = [] := by
        rw [hws]
        apply List.filter_eq_nil_iff.mpr
        intro s hs
        simpa using hall s hs
      rw [hempty]
      rfl
  · intro s hsome
    unfold getLastWorkingSnapshot at hsome
    rw [← hws] at hsome
    cases hsort : List.insertionSort tsGE ws with
    | nil => rw [hsort] at hsome; simp at hsome
    | cons x xs =>
      rw [hsort] at hsome
      simp only [List.head?_cons, Option.some.injEq] at hsome
      subst hsome
      have hxmem : x ∈ ws := (hperm.mem_iff).mp (by rw [hsort]; exact List.mem_cons_self _ _)
      have hx := List.mem_filter.mp (hws ▸ hxmem)
      refine ⟨hx.1, by simpa using hx.2, ?_⟩
      intro t ht htw
      have htws : t ∈ ws := by
        rw [hws]
        exact List.mem_filter.mpr ⟨ht, by simpa using htw⟩
      exact sortTs_head_max hsort t htws

/-! ### Supporting lemmas: snapshot cleanup -/

/-- Looping `deleteSnapshot` over a deletion list filters the store by
"id not among the deleted". -/
theorem foldl_delete_eq_filter (D : List Snapshot) :
    ∀ store : List Snapshot,
      D.foldl (fun acc s => deleteById acc s.id) store =
        store.filter (fun s => D.all (fun d => decide (s.id ≠ d.id))) := by
  induction D with
  | nil =>
    intro store
    simp [List.filter_true]
  | cons d D ih =>
    intro store
    simp only [List.foldl_cons]
    rw [ih (deleteById store d.id)]
    unfold deleteById
    rw [List.filter_filter]
    apply List.filter_congr
    intro s _
    rw [Bool.eq_iff_iff]
    simp only [List.all_cons, Bool.and_eq_true, decide_eq_true_eq]
    tauto

/-- After a cleanup pass, at most `cap` snapshots selected by `p` remain. -/
theorem cleanupGen_filter_le (p : Snapshot → Bool) (cap : Nat) (store : List Snapshot) :
    ((cleanupGen p cap store).filter p).length ≤ cap := by
  unfold cleanupGen
  have hperm : List.Perm (List.insertionSort tsGE store) store := sortTs_perm store
  by_cases h : ((List.insertionSort tsGE store).filter p).length > cap
  · rw [if_pos h, foldl_delete_eq_filter]
    set sel := (List.insertionSort tsGE store).filter p with hsel
    set A : Snapshot → Bool := fun s => (sel.drop cap).all (fun d => decide (s.id ≠ d.id)) with hA
    have hperm2 : List.Perm ((store.filter A).filter p) (((List.insertionSort tsGE store).filter A).filter p) :=
      ((hperm.filter A).symm).filter p
    rw [hperm2.length_eq, List.filter_filter]
    have hcomm : List.filter (fun a => p a && A a) (List.insertionSort tsGE store) =
        sel.filter A := by
      conv_rhs => rw [hsel]
      rw [List.filter_filter]
      apply List.filter_congr
      intro s _
      exact Bool.and_comm (p s) (A s)
    rw [hcomm]
    have hsplit : sel = sel.take cap ++ sel.drop cap := (List.take_append_drop cap sel).symm
    rw [hsplit, List.filter_append]
    have hdrop : (sel.drop cap).filter A = [] := by
      apply List.filter_eq_nil_iff.mpr
      intro d hd
      intro hAd
      rw [hA] at hAd
      simp only [List.all_eq_true, decide_eq_true_eq] at hAd
      exact hAd d hd rfl
    rw [hdrop, List.append_nil]
    calc ((sel.take cap).filter A).length ≤ (sel.take cap).length := List.length_filter_le _ _
      _ ≤ cap := List.length_take_le cap sel
  · rw [if_neg h]
    push_neg at h
    calc (store.filter p).length = ((List.insertionSort tsGE store).filter p).length :=
          ((hperm.filter p).length_eq).symm
      _ ≤ cap := h

/-- A cleanup pass only deletes: any selection can only shrink. -/
theorem cleanupGen_other_le (p q : Snapshot → Bool) (cap : Nat) (store : List Snapshot) :
    ((cleanupGen p cap store).filter q).length ≤ (store.filter q).length := by
  unfold cleanupGen
  by_cases h : ((List.insertionSort tsGE store).filter p).length > cap
  · rw [if_pos h, foldl_delete_eq_filter]
    exact ((List.filter_sublist store).filter q).length_le
  · rw [if_neg h]

/-- A cleanup pass with the selection already within the cap does nothing. -/
theorem cleanupGen_id (p : Snapshot → Bool) (cap : Nat) (store : List Snapshot)
    (h : (store.filter p).length ≤ cap) : cleanupGen p cap store = store := by
  unfold cleanupGen
  have hperm : List.Perm (List.insertionSort tsGE store) store := sortTs_perm store
  rw [if_neg]
  push_neg
  calc ((List.insertionSort tsGE store).filter p).length
      = (store.filter p).length := (hperm.filter p).length_eq
    _ ≤ cap := h

/-- Counting auto-saves distributes over append. -/
theorem countAuto_append (l1 l2 : List Snapshot) :
    countAuto (l1 ++ l2) = countAuto l1 + countAuto l2 := by
  simp [countAuto, List.filter_append]

/-- Counting non-milestones distributes over append. -/
theorem countNonMilestone_append (l1 l2 : List Snapshot) :
    countNonMilestone (l1 ++ l2) = countNonMilestone l1 + countNonMilestone l2 := by
  simp [countNonMilestone, List.filter_append]

/-- After cleanup, `cleanupOldSnapshots` leaves at most `maxSnapshots` non-milestones. -/
theorem cleanupOld_countNM (σ : MState) :
    countNonMilestone (cleanupOldSnapshots σ).store ≤ maxSnapshots :=
  cleanupGen_filter_le _ _ _

/-- After cleanup, `cleanupAutoSaves` leaves at most `maxAutoSaves` auto-saves. -/
theorem cleanupAuto_countAuto (σ : MState) :
    countAuto (cleanupAutoSaves σ).store ≤ maxAutoSaves :=
  cleanupGen_filter_le _ _ _

/-- Deleting only, `cleanupOldSnapshots` cannot increase the number of auto-saves. -/
theorem cleanupOld_countAuto_le (σ : MState) :
    countAuto (cleanupOldSnapshots σ).store ≤ countAuto σ.store :=
  cleanupGen_other_le _ _ _ _

/-- One `saveSnapshot` call leaves at most `maxSnapshots + 1` non-milestone
snapshots, and — provided the auto-save count was within its post-call
bound — at most `maxAutoSaves + 1` auto-saves (cleanup runs before the
insertion, so each cap can be exceeded by exactly the new snapshot). -/
theorem saveSnapshot_counts (d : SnapshotDraft) (σ : MState)
    (hA : countAuto σ.store ≤ maxAutoSaves + 1) :
    countNonMilestone ((saveSnapshot d σ).2).store ≤ maxSnapshots + 1 ∧
    countAuto ((saveSnapshot d σ).2).store ≤ maxAutoSaves + 1 := by
  have key : ((saveSnapshot d σ).2).store =
      (cleanupOldSnapshots (if d.autoSave then cleanupAutoSaves σ else σ)).store ++
        [mkSnap d (cleanupOldSnapshots (if d.autoSave then cleanupAutoSaves σ else σ)).nextId] := rfl
  rw [key, countNonMilestone_append, countAuto_append]
  constructor
  · have h2 := cleanupOld_countNM (if d.autoSave then cleanupAutoSaves σ else σ)
    have h3 : countNonMilestone [mkSnap d (cleanupOldSnapshots (if d.autoSave then cleanupAutoSaves σ else σ)).nextId] ≤ 1 := by
      simpa [countNonMilestone] using
        List.length_filter_le (fun s => !s.isMilestone)
          [mkSnap d (cleanupOldSnapshots (if d.autoSave then cleanupAutoSaves σ else σ)).nextId]
    omega
  · by_cases hauto : d.autoSave = true
    · rw [if_pos hauto]
      have h1 : countAuto (cleanupOldSnapshots (cleanupAutoSaves σ)).store ≤ maxAutoSaves :=
        Nat.le_trans (cleanupOld_countAuto_le _) (cleanupAuto_countAuto σ)
      have h3 : countAuto [mkSnap d (cleanupOldSnapshots (cleanupAutoSaves σ)).nextId] ≤ 1 := by
        simpa [countAuto] using
          List.length_filter_le (fun s => s.autoSave)
            [mkSnap d (cleanupOldSnapshots (cleanupAutoSaves σ)).nextId]
      omega
    · rw [if_neg hauto]
      have h1 : countAuto (cleanupOldSnapshots σ).store ≤ maxAutoSaves + 1 :=
        Nat.le_trans (cleanupOld_countAuto_le _) hA
      have h3 : countAuto [mkSnap d (cleanupOldSnapshots σ).nextId] = 0 := by
        simp only [countAuto, List.filter, mkSnap]
        simp [Bool.not_eq_true] at hauto
        simp [hauto]
      omega

/-- C1 (amended): after every sequence of `saveSnapshot` calls from the
empty store, the store holds at most `maxSnapshots + 1 = 51` non-milestone
snapshots and at most `maxAutoSaves + 1 = 11` auto-save snapshots (the
caps claimed by the spec hold only before the insertion, since both
cleanups run before the new snapshot is added). -/
theorem snapshotCaps_amended (drafts : List SnapshotDraft) :
    countNonMilestone (runSaves drafts initMState).store ≤ maxSnapshots + 1 ∧
    countAuto (runSaves drafts initMState).store ≤ maxAutoSaves + 1 := by
  suffices h : ∀ σ : MState, countNonMilestone σ.store ≤ maxSnapshots + 1 →
      countAuto σ.store ≤ maxAutoSaves + 1 →
      countNonMilestone (runSaves drafts σ).store ≤ maxSnapshots + 1 ∧
      countAuto (runSaves drafts σ).store ≤ maxAutoSaves + 1 by
    exact h initMState (by simp [initMState, countNonMilestone]) (by simp [initMState, countAuto])
  unfold runSaves
  induction drafts with
  | nil =>
    intro σ h1 h2
    exact ⟨h1, h2⟩
  | cons d rest ih =>
    intro σ _ h2
    simp only [List.foldl_cons]
    have hstep := saveSnapshot_counts d σ h2
    exact ih _ hstep.1 hstep.2

/-- A minimal auto-save draft with the given timestamp. -/
def autoDraft (k : Nat) : SnapshotDraft :=
  ⟨k, "", .testing, "", [], 0, 0, false, true, none, none, []⟩

/-- Eleven auto-save drafts with timestamps 1..11. -/
def elevenAutoDrafts : List SnapshotDraft := (List.range 11).map (fun k => autoDraft (k + 1))

/-- C1 (counterexample): eleven auto-saves from the empty store leave
eleven auto-save snapshots in the store — the claimed cap
`count(autoSave snapshots) ≤ maxAutoSaves = 10` is violated after the
eleventh call, because `cleanupAutoSaves` runs before the insertion. -/
theorem snapshotCaps_counterexample :
    countAuto (runSaves elevenAutoDrafts initMState).store = maxAutoSaves + 1 ∧
    ¬ countAuto (runSaves elevenAutoDrafts initMState).store ≤ maxAutoSaves := by
  constructor <;> decide

/-! ### Supporting lemmas: export/import round-trip -/

/-- A `saveSnapshot` on a store within both caps performs no eviction:
it just appends the new snapshot and bumps the id supply. -/
theorem saveSnapshot_no_evict (d : SnapshotDraft) (σ : MState)
    (hNM : countNonMilestone σ.store ≤ maxSnapshots)
    (hA : d.autoSave = true → countAuto σ.store ≤ maxAutoSaves) :
    (saveSnapshot d σ).2 = ⟨σ.store ++ [mkSnap d σ.nextId], σ.nextId + 1⟩ := by
  have h1 : (if d.autoSave then cleanupAutoSaves σ else σ) = σ := by
    by_cases hauto : d.autoSave = true
    · rw [if_pos hauto]
      unfold cleanupAutoSaves
      rw [cleanupGen_id _ _ _ (hA hauto)]
    · rw [if_neg hauto]
  have h2 : cleanupOldSnapshots σ = σ := by
    unfold cleanupOldSnapshots
    rw [cleanupGen_id _ _ _ hNM]
  unfold saveSnapshot
  rw [h1]
  show MState.mk ((cleanupOldSnapshots σ).store ++ [mkSnap d (cleanupOldSnapshots σ).nextId])
    ((cleanupOldSnapshots σ).nextId + 1) = _
  rw [h2]

/-- Id assignment performed by a run of evicition-free `saveSnapshot`s. -/
def assignIds : List Snapshot → Nat → List Snapshot
  | [], _ => []
  | s :: rest, n => mkSnap (toDraft s) n :: assignIds rest (n + 1)

/-- The content fields the round-trip claim compares. -/
def projSnap (s : Snapshot) : String × SnapStatus × String × List (String × String) :=
  (s.label, s.status, s.code, s.files)

theorem assignIds_length (L : List Snapshot) : ∀ n, (assignIds L n).length = L.length := by
  induction L with
  | nil => intro n; rfl
  | cons s rest ih => intro n; simp [assignIds, ih]

theorem assignIds_map_proj (L : List Snapshot) :
    ∀ n, (assignIds L n).map projSnap = L.map projSnap := by
  induction L with
  | nil => intro n; rfl
  | cons s rest ih =>
    intro n
    simp only [assignIds, List.map_cons, ih]
    rfl

/-- Value of `countAuto` on a cons cell. -/
theorem countAuto_cons (s : Snapshot) (rest : List Snapshot) :
    countAuto (s :: rest) = (if s.autoSave then 1 else 0) + countAuto rest := by
  simp only [countAuto, List.filter_cons]
  by_cases h : s.autoSave
  · simp only [h, if_pos]
    simp [Nat.add_comm]
  · simp [h]

/-- Value of `countNonMilestone` on a cons cell. -/
theorem countNonMilestone_cons (s : Snapshot) (rest : List Snapshot) :
    countNonMilestone (s :: rest) = (if s.isMilestone then 0 else 1) + countNonMilestone rest := by
  simp only [countNonMilestone, List.filter_cons]
  by_cases h : s.isMilestone
  · simp [h]
  · simp only [h, Bool.not_eq_true]
    simp [h, Nat.add_comm]

/-- Importing a payload into a store that stays within both caps for the
whole run triggers no eviction: the final store is the original store
with the payload appended under fresh ids. -/
theorem import_no_evict (L : List Snapshot) :
    ∀ σ : MState,
      countNonMilestone σ.store + countNonMilestone L ≤ maxSnapshots →
      countAuto σ.store + countAuto L ≤ maxAutoSaves + 1 →
      (L.foldl (fun acc s => (saveSnapshot (toDraft s) acc).2) σ).store =
        σ.store ++ assignIds L σ.nextId := by
  induction L with
  | nil =>
    intro σ _ _
    simp [assignIds]
  | cons s rest ih =>
    intro σ hNM hA
    have hsNM : countNonMilestone σ.store ≤ maxSnapshots := by
      have := countNonMilestone_cons s rest
      omega
    have hsA : (toDraft s).autoSave = true → countAuto σ.store ≤ maxAutoSaves := by
      intro hauto
      have hsa : s.autoSave = true := hauto
      rw [countAuto_cons, hsa, if_pos rfl] at hA
      omega
    simp only [List.foldl_cons]
    rw [saveSnapshot_no_evict (toDraft s) σ hsNM hsA]
    have hNM' : countNonMilestone (σ.store ++ [mkSnap (toDraft s) σ.nextId]) +
        countNonMilestone rest ≤ maxSnapshots := by
      rw [countNonMilestone_append]
      have hm : countNonMilestone [mkSnap (toDraft s) σ.nextId] =
          (if s.isMilestone then 0 else 1) := by
        simp only [countNonMilestone, List.filter_cons, List.filter_nil, mkSnap, toDraft]
        by_cases h : s.isMilestone
        · simp [h]
        · simp [h]
      rw [countNonMilestone_cons] at hNM
      omega
    have hA' : countAuto (σ.store ++ [mkSnap (toDraft s) σ.nextId]) +
        countAuto rest ≤ maxAutoSaves + 1 := by
      rw [countAuto_append]
      have hm : countAuto [mkSnap (toDraft s) σ.nextId] = (if s.autoSave then 1 else 0) := by
        simp only [countAuto, List.filter_cons, List.filter_nil, mkSnap, toDraft]
        by_cases h : s.autoSave
        · simp [h]
        · simp [h]
      rw [countAuto_cons] at hA
      omega
    have := ih ⟨σ.store ++ [mkSnap (toDraft s) σ.nextId], σ.nextId + 1⟩ hNM' hA'
    rw [this]
    simp [assignIds, List.append_assoc]

/-- C8 (amended): for every store holding at most `maxSnapshots`
non-milestone snapshots and at most `maxAutoSaves + 1` auto-saves
(bounds under which the import triggers no eviction; every store reachable
through `saveSnapshot` satisfies the auto-save bound, and the
non-milestone bound holds before the last insertion), importing the
export into a fresh store reproduces the same number of snapshots and the
same multiset of `(label, status, code, files)` contents — ids may
differ. -/
theorem export_import_roundTrip (store : List Snapshot) (n : Nat)
    (hNM : countNonMilestone store ≤ maxSnapshots)
    (hA : countAuto store ≤ maxAutoSaves + 1) :
    ((importSnapshots (exportSnapshots ⟨store, n⟩) initMState).2).store.length = store.length ∧
    List.Perm (((importSnapshots (exportSnapshots ⟨store, n⟩) initMState).2).store.map projSnap)
      (store.map projSnap) := by
  have hperm : List.Perm (exportSnapshots ⟨store, n⟩) store := sortTs_perm store
  have hNM' : countNonMilestone initMState.store + countNonMilestone (exportSnapshots ⟨store, n⟩) ≤ maxSnapshots := by
    have he : countNonMilestone (exportSnapshots ⟨store, n⟩) = countNonMilestone store := by
      unfold countNonMilestone
      exact (hperm.filter _).length_eq
    have hz : countNonMilestone initMState.store = 0 := rfl
    omega
  have hA' : countAuto initMState.store + countAuto (exportSnapshots ⟨store, n⟩) ≤ maxAutoSaves + 1 := by
    have he : countAuto (exportSnapshots ⟨store, n⟩) = countAuto store := by
      unfold countAuto
      exact (hperm.filter _).length_eq
    have hz : countAuto initMState.store = 0 := rfl
    omega
  have hfinal : ((importSnapshots (exportSnapshots ⟨store, n⟩) initMState).2).store =
      assignIds (exportSnapshots ⟨store, n⟩) 0 := by
    unfold importSnapshots
    rw [import_no_evict (exportSnapshots ⟨store, n⟩) initMState hNM' hA']
    rfl
  rw [hfinal]
  constructor
  · rw [assignIds_length]
    exact hperm.length_eq
  · rw [assignIds_map_proj]
    exact hperm.map projSnap

/-- A small concrete store: one milestone and one auto-save. -/
def rtSnapA : Snapshot := ⟨0, 1, "milestone", .working, "codeA", [("a.ts", "x")], 1, 2, true, false, none, none, []⟩

/-- Second snapshot of the concrete round-trip store. -/
def rtSnapB : Snapshot := ⟨1, 2, "auto", .testing, "codeB", [("b.ts", "y")], 1, 2, false, true, some "d", none, []⟩

/-- The concrete round-trip store. -/
def rtStore : List Snapshot := [rtSnapA, rtSnapB]

/-- Witness for the amended C8 theorem at a concrete two-snapshot store. -/
theorem export_import_roundTrip_witness :
    (countNonMilestone rtStore ≤ maxSnapshots ∧ countAuto rtStore ≤ maxAutoSaves + 1) ∧
    (((importSnapshots (exportSnapshots ⟨rtStore, 7⟩) initMState).2).store.length = rtStore.length ∧
     List.Perm (((importSnapshots (exportSnapshots ⟨rtStore, 7⟩) initMState).2).store.map projSnap)
       (rtStore.map projSnap)) :=
  ⟨⟨by decide, by decide⟩, export_import_roundTrip rtStore 7 (by decide) (by decide)⟩

/-- A minimal auto-save snapshot with id `k` and timestamp `k + 1`. -/
def autoSnap (k : Nat) : Snapshot := ⟨k, k + 1, "", .testing, "", [], 0, 0, false, true, none, none, []⟩

/-- A store of twelve auto-saves (timestamps 1..12). -/
def store12 : MState := ⟨(List.range 12).map autoSnap, 12⟩

/-- C8 (counterexample): a store of twelve auto-save snapshots — legitimate
store contents under the claim's unrestricted quantification — loses a
snapshot in the round trip: importing its export into a fresh store
triggers `cleanupAutoSaves` before the twelfth insertion and leaves only
eleven snapshots. -/
theorem export_import_counterexample :
    store12.store.length = 12 ∧
    ((importSnapshots (exportSnapshots store12) initMState).2).store.length = 11 := by
  constructor <;> decide

/-- A snapshot for the C3 witness store. -/
def c3snap (i ts : Nat) (st : SnapStatus) : Snapshot :=
  ⟨i, ts, "", st, "", [], 0, 0, false, false, none, none, []⟩

/-- The C3 witness store: `working@1`, `broken@2`, `working@3`. -/
def c3State : MState := ⟨[c3snap 0 1 .working, c3snap 1 2 .broken, c3snap 2 3 .working], 3⟩

/-- Witness for C3 at the spec's example store: the `working@3` snapshot is
returned even though `broken@2` is more recent than `working@1`. -/
theorem getLastWorking_correct_witness :
    getLastWorkingSnapshot c3State = some (c3snap 2 3 .working) ∧
    (c3snap 2 3 .working).status = .working ∧
    (∀ t ∈ c3State.store, t.status = .working →
      t.timestamp ≤ (c3snap 2 3 .working).timestamp) := by
  have heq : getLastWorkingSnapshot c3State = some (c3snap 2 3 .working) := by decide
  have h := (getLastWorking_correct c3State).2 (c3snap 2 3 .working) heq
  exact ⟨heq, h.2.1, h.2.2⟩

/-- The stored snapshot that `restoreSnapshot` is asked to restore. -/
def restoreTarget : Snapshot :=
  ⟨0, 5, "base", .working, "TARGET", [("f.ts", "1")], 3, 7, false, false, none, none, []⟩

/-- The store holding only `restoreTarget`. -/
def restoreState : MState := ⟨[restoreTarget], 1⟩

/-- The backup that `restoreSnapshot 9 0` actually writes. -/
def restoreBackup : Snapshot :=
  ⟨1, 9, "Before restore to: base", .testing, "TARGET", [("f.ts", "1")], 3, 7, false, false,
   some "Automatic backup before restore", none, []⟩

/-- C2 (evaluation at the failing input): `restoreSnapshot` writes exactly
one new snapshot with status `'testing'` and a label referencing the
target, but the backup's `code` and `files` are the restore target's
stored content — `restoreSnapshot` receives no live editor state at all
(visible in its signature), so the backup cannot capture it; the source
itself comments `// This should be the current code`. -/
theorem restore_backup_duplicates_target :
    restoreSnapshot 9 0 restoreState = .ok (restoreTarget, ⟨[restoreTarget, restoreBackup], 2⟩) ∧
    restoreBackup.status = .testing ∧
    restoreBackup.label = "Before restore to: " ++ restoreTarget.label ∧
    (restoreState.store.length + 1 = 2) ∧
    restoreBackup.code = restoreTarget.code ∧
    restoreBackup.files = restoreTarget.files := by
  refine ⟨?_, ?_, ?_, ?_, ?_, ?_⟩
  · rfl
  · decide
  · decide
  · decide
  · decide
  · decide

/-! ### C4: memory-tier bound -/

/-- A minimal response used in concrete cache states. -/
def dummyResp : ClaudeResponse := ⟨"r", none, none, none⟩

/-- A minimal cache entry with the given key. -/
def dummyEntry (k : String) : CacheEntry := ⟨k, dummyResp, 0, 0⟩

/-- A memory tier filled to capacity with 100 distinct keys. -/
def fullMem : MemCache :=
  (List.range 100).map (fun i => ("k" ++ natToB36 i, dummyEntry ("k" ++ natToB36 i)))

/-- A state whose memory tier is full and whose persistent tier holds the
entry for the query `"hello"` (key absent from the memory tier). -/
def promoState : ApiState :=
  ⟨0, 0, fullMem, some [(generateCacheKeyUser "hello", dummyEntry (generateCacheKeyUser "hello"))]⟩

/-- C4 (counterexample): a `checkCache` persistent-tier promotion on a
full memory tier inserts without evicting, leaving
`maxMemoryCacheSize + 1 = 101` entries — the claimed cap does not hold
after this cache operation. -/
theorem memoryCacheCap_counterexample :
    fullMem.length = maxMemoryCacheSize ∧
    ((checkCache "hello" promoState).2).mem.length = maxMemoryCacheSize + 1 := by
  constructor <;> decide

/-- The result of 101 distinct `cacheResponse` insertions into an empty memory tier. -/
def ins101 : MemCache :=
  (List.range 101).foldl (fun mm i => cacheResponse i ("k" ++ natToB36 i) dummyResp mm) []

/-- C4 (amended): the bound holds for `cacheResponse` insertions — from a
state within the cap, `cacheResponse` leaves at most `maxMemoryCacheSize`
entries; inserting a new distinct entry at capacity evicts exactly the
oldest-inserted entry; and 101 distinct insertions into an empty tier
leave exactly 100 entries with the first-inserted key absent.  (The
`checkCache` persistent-tier promotion, by contrast, inserts with no size
check and violates the cap.) -/
theorem memoryCacheCap_amended (m : MemCache) (k : String) (r : ClaudeResponse) (now : Nat)
    (hlen : m.length ≤ maxMemoryCacheSize) :
    (cacheResponse now k r m).length ≤ maxMemoryCacheSize ∧
    ((m.map Prod.fst).Nodup → m.length = maxMemoryCacheSize → k ∉ m.map Prod.fst →
      cacheResponse now k r m = m.drop 1 ++ [(k, ⟨k, r, now, 0⟩)]) ∧
    (ins101.length = maxMemoryCacheSize ∧ mapGet ins101 ("k" ++ natToB36 0) = none) := by
  refine ⟨?_, ?_, by constructor <;> decide⟩
  · simp only [cacheResponse, mapSet]
    by_cases hin : m.any (fun p => p.1 == k)
    · rw [if_pos hin]
      have hmap : (m.map (fun p => if p.1 == k then (k, ⟨k, r, now, 0⟩) else p)).length = m.length :=
        List.length_map _ _
      rw [if_neg (by omega)]
      omega
    · rw [if_neg hin]
      have hlen1 : (m ++ [(k, (⟨k, r, now, 0⟩ : CacheEntry))]).length = m.length + 1 := by
        simp
      by_cases hf : (m ++ [(k, (⟨k, r, now, 0⟩ : CacheEntry))]).length > maxMemoryCacheSize
      · rw [if_pos hf]
        have hm : m ≠ [] := by
          intro hnil
          rw [hnil] at hf
          simp [maxMemoryCacheSize] at hf
        cases m with
        | nil => exact absurd rfl hm
        | cons h t =>
          simp only [List.cons_append, List.head?_cons]
          unfold mapDeleteKey
          rw [List.filter_cons]
          have hh : (!(h.1 == h.1)) = false := by simp
          rw [hh]
          simp only [Bool.false_eq_true, if_false]
          have hle := List.length_filter_le (fun p => !(p.1 == h.1)) (t ++ [(k, (⟨k, r, now, 0⟩ : CacheEntry))])
          have hlt : (t ++ [(k, (⟨k, r, now, 0⟩ : CacheEntry))]).length = t.length + 1 := by simp
          have htl : t.length + 1 ≤ maxMemoryCacheSize := by
            simp only [List.length_cons] at hlen
            omega
          omega
      · rw [if_neg hf]
        omega
  · intro hnodup hfull hout
    simp only [cacheResponse, mapSet]
    have hany : m.any (fun p => p.1 == k) = false := by
      rw [List.any_eq_false]
      intro p hp hpk
      exact hout ((eq_of_beq hpk) ▸ List.mem_map_of_mem Prod.fst hp)
    rw [if_neg (show ¬ ((List.any m fun p => p.1 == k) = true) from by
      rw [hany]; exact Bool.false_ne_true)]
    cases m with
    | nil => simp [maxMemoryCacheSize] at hfull
    | cons h t =>
      have hgt : ((h :: t) ++ [(k, (⟨k, r, now, 0⟩ : CacheEntry))]).length > maxMemoryCacheSize := by
        simp only [List.length_append, List.length_cons, List.length_singleton]
        simp only [List.length_cons] at hfull
        omega
      rw [if_pos hgt]
      simp only [List.cons_append, List.head?_cons]
      unfold mapDeleteKey
      rw [List.filter_cons]
      have hh : (!(h.1 == h.1)) = false := by simp
      rw [hh]
      simp only [Bool.false_eq_true, if_false]
      have hkeep : (t ++ [(k, (⟨k, r, now, 0⟩ : CacheEntry))]).filter (fun p => !(p.1 == h.1)) =
          t ++ [(k, (⟨k, r, now, 0⟩ : CacheEntry))] := by
        rw [List.filter_eq_self]
        intro p hp
        rcases List.mem_append.mp hp with hpt | hpk
        · simp only [Bool.not_eq_eq_eq_not, Bool.not_true, beq_eq_false_iff_ne, ne_eq]
          intro hp1
          have hnod := hnodup
          simp only [List.map_cons, List.nodup_cons] at hnod
          exact hnod.1 (hp1 ▸ List.mem_map_of_mem Prod.fst hpt)
        · simp only [List.mem_singleton] at hpk
          subst hpk
          simp only [Bool.not_eq_eq_eq_not, Bool.not_true, beq_eq_false_iff_ne, ne_eq]
          intro hk1
          exact hout (by rw [hk1]; exact List.mem_map_of_mem Prod.fst (List.mem_cons_self h t))
      rw [hkeep]
      rfl

/-- Witness for the amended C4 theorem at the full concrete memory tier. -/
theorem memoryCacheCap_amended_witness :
    fullMem.length ≤ maxMemoryCacheSize ∧
    (cacheResponse 5 "x" dummyResp fullMem).length ≤ maxMemoryCacheSize :=
  ⟨by decide, (memoryCacheCap_amended fullMem "x" dummyResp 5 (by decide)).1⟩

/-! ### C5: fuzzy cache tier -/

/-- A query cached earlier, classified under the intent category `testing`. -/
def similarQuery1 : String := "run the test suite"

/-- A later query, also classified under `testing`. -/
def similarQuery2 : String := "test this function"

/-- The memory tier holding exactly the entry produced for
`similarQuery1`, under its real `generateCacheKey` key. -/
def similarCache : MemCache :=
  [(generateCacheKeyUser similarQuery1, dummyEntry (generateCacheKeyUser similarQuery1))]

/-- C5 (evaluation at the failing input): both queries classify to the
intent category `testing`, yet the fuzzy tier returns no entry, because
`generateCacheKey` keys are `claude_<base-36 hash>` strings that never
embed the category name that `key.includes(category)` looks for.  The
no-category half of the claim does hold: a query matching no intent
pattern yields no fuzzy entry. -/
theorem fuzzyTier_misses_same_category :
    classifyIntent similarQuery1 = some "testing" ∧
    classifyIntent similarQuery2 = some "testing" ∧
    findSimilarCacheEntry similarQuery2 similarCache = none ∧
    (∀ q, classifyIntent q = none → ∀ m : MemCache, findSimilarCacheEntry q m = none) := by
  refine ⟨by decide, by decide, by decide, ?_⟩
  intro q hq m
  unfold findSimilarCacheEntry
  rw [hq]

/-- Witness: the no-category branch of `fuzzyTier_misses_same_category`
applied at a concrete query with no intent pattern. -/
theorem fuzzyTier_misses_witness :
    classifyIntent "greetings" = none ∧
    findSimilarCacheEntry "greetings" similarCache = none :=
  ⟨by decide, fuzzyTier_misses_same_category.2.2.2 "greetings" (by decide) similarCache⟩

/-! ### C9: counter sanity -/

/-- Every `checkCache` call increments `totalRequests` exactly once and
`cacheHits` at most once (and never decrements it). -/
theorem checkCache_counts (q : String) (σ : ApiState) :
    ((checkCache q σ).2).totalRequests = σ.totalRequests + 1 ∧
    σ.cacheHits ≤ ((checkCache q σ).2).cacheHits ∧
    ((checkCache q σ).2).cacheHits ≤ σ.cacheHits + 1 := by
  unfold checkCache
  cases hm : mapGet σ.mem (generateCacheKeyUser q) with
  | some e => simp [hm]
  | none =>
    cases hp : σ.persistent with
    | none =>
      cases hs : findSimilarCacheEntry q σ.mem with
      | some e => simp [hm, hp, hs]
      | none => simp [hm, hp, hs]
    | some pstore =>
      cases hpe : mapGet pstore (generateCacheKeyUser q) with
      | some e => simp [hm, hp, hpe]
      | none =>
        cases hs : findSimilarCacheEntry q σ.mem with
        | some e => simp [hm, hp, hpe, hs]
        | none => simp [hm, hp, hpe, hs]

/-- C9: Counter sanity — in every state reachable by `ClaudeAPI`
operations from a fresh instance, `cacheHits ≤ totalRequests`, and the
reported hit rate lies between 0 and 100; moreover each `checkCache` call
adds exactly one request and at most one hit, `clearCache` zeroes both
counters, and `cacheResponse` touches neither. -/
theorem cacheCounters_sane :
    (∀ ops : List ApiOp,
      (runApiOps ops).cacheHits ≤ (runApiOps ops).totalRequests ∧
      hitRate (runApiOps ops) ≤ 100) ∧
    (∀ q σ, ((checkCache q σ).2).totalRequests = σ.totalRequests + 1 ∧
            σ.cacheHits ≤ ((checkCache q σ).2).cacheHits ∧
            ((checkCache q σ).2).cacheHits ≤ σ.cacheHits + 1) ∧
    (∀ σ, (clearCache σ).totalRequests = 0 ∧ (clearCache σ).cacheHits = 0) ∧
    (∀ σ now k r, (applyApiOp σ (.cacheResp now k r)).totalRequests = σ.totalRequests ∧
                  (applyApiOp σ (.cacheResp now k r)).cacheHits = σ.cacheHits) := by
  have hrate : ∀ σ : ApiState, σ.cacheHits ≤ σ.totalRequests → hitRate σ ≤ 100 := by
    intro σ h
    unfold hitRate
    by_cases ht : σ.totalRequests = 0
    · simp [ht]
    · rw [if_neg ht]
      have hpos : 0 < 2 * σ.totalRequests := by omega
      have hlt : 200 * σ.cacheHits + σ.totalRequests < 101 * (2 * σ.totalRequests) := by omega
      have := (Nat.div_lt_iff_lt_mul hpos).mpr hlt
      omega
  have hinv : ∀ ops : List ApiOp, ∀ σ : ApiState, σ.cacheHits ≤ σ.totalRequests →
      (ops.foldl applyApiOp σ).cacheHits ≤ (ops.foldl applyApiOp σ).totalRequests := by
    intro ops
    induction ops with
    | nil => intro σ h; simpa using h
    | cons op rest ih =>
      intro σ h
      simp only [List.foldl_cons]
      apply ih
      cases op with
      | check q =>
        have hc := checkCache_counts q σ
        simp only [applyApiOp]
        omega
      | cacheResp now k r => simpa using h
      | clear => simp [applyApiOp, clearCache]
  refine ⟨?_, checkCache_counts, fun σ => ⟨rfl, rfl⟩, fun σ now k r => ⟨rfl, rfl⟩⟩
  intro ops
  have h := hinv ops initApiState (by simp [initApiState])
  exact ⟨h, hrate _ h⟩

/-! ### C10: `sendMessage` failure handling -/

/-- C10 (counterexample): on an empty message list `sendMessage` throws a
`TypeError` (`messages[messages.length - 1]` is `undefined`) before the
`try` block is entered — even when the fetch would fail — so the caller
receives a rejection, not a response value. -/
theorem sendMessage_empty_throws :
    sendMessage .fetchThrow 0 [] initApiState = .error .typeError := rfl

/-- C10 (amended): for every NON-EMPTY message list, every state and every
failing fetch outcome (thrown fetch, non-ok HTTP response, or an `error`
field in the reply), `sendMessage` returns a response value rather than
throwing; on a cache miss that value is exactly
`getFallbackResponse(lastMessage.content)`. -/
theorem sendMessage_fallback (env : FetchOutcome) (now : Nat) (msgs : List ClaudeMessage)
    (σ : ApiState) (last : ClaudeMessage)
    (hlast : msgs.getLast? = some last) (hf : envFails env = true) :
    ∃ r σ1, sendMessage env now msgs σ = .ok (r, σ1) ∧
      ((checkCache last.content σ).1 = none → r = getFallbackResponse last.content) := by
  unfold sendMessage
  rw [hlast]
  simp only []
  cases hc : checkCache last.content σ with
  | mk copt σ1 =>
    cases copt with
    | some c =>
      refine ⟨c, σ1, rfl, ?_⟩
      intro hn
      simp at hn
    | none =>
      cases env with
      | fetchThrow => exact ⟨_, σ1, rfl, fun _ => rfl⟩
      | httpError status => exact ⟨_, σ1, rfl, fun _ => rfl⟩
      | success d =>
        have hd : d.errorMsg.isSome = true := hf
        refine ⟨getFallbackResponse last.content, σ1, ?_, fun _ => rfl⟩
        simp [hd]

/-- Witness for the amended C10 theorem: a one-message conversation and a
thrown fetch. -/
theorem sendMessage_fallback_witness :
    (([⟨.user, "hi"⟩] : List ClaudeMessage).getLast? = some ⟨.user, "hi"⟩ ∧
      envFails .fetchThrow = true) ∧
    (∃ r σ1, sendMessage .fetchThrow 0 [⟨.user, "hi"⟩] initApiState = .ok (r, σ1) ∧
      ((checkCache "hi" initApiState).1 = none → r = getFallbackResponse "hi")) :=
  ⟨⟨rfl, rfl⟩,
   sendMessage_fallback .fetchThrow 0 [⟨.user, "hi"⟩] initApiState ⟨.user, "hi"⟩ rfl rfl⟩

/-- A concrete three-item queue for the C7 witness. -/
def replayQueue3 : List QItem := [⟨1, "a"⟩, ⟨2, "b"⟩, ⟨3, "c"⟩]

/-- A replay outcome map failing exactly the middle item. -/
def replayRes3 (it : QItem) : ReplayOutcome := if it.id = 2 then .notOk else .ok

/-- Witness for C7: replaying a three-item queue whose middle item fails
attempts all three items and leaves exactly the failed one queued. -/
theorem offlineReplay_independent_witness :
    (replayQueue3.map QItem.id).Nodup ∧
    ((processOfflineQueue replayRes3 replayQueue3).2 = replayQueue3 ∧
     (processOfflineQueue replayRes3 replayQueue3).1 =
       replayQueue3.filter (fun it => decide (replayRes3 it ≠ .ok))) :=
  ⟨by decide, offlineReplay_independent replayRes3 replayQueue3 (by decide)⟩
